import Mathlib

/-!
Shallow embedding of `gnome-wallpape-rs` (src/src/main.rs), a wallpaper
rotation utility, together with proofs about the claims of its
specification.

Modelling conventions:
* The config file on disk is `Option Config`: `none` models a missing,
  unreadable or malformed file; `some c` a file that parses to the record
  `c`.  TOML serialization is faithful on this record type, so
  `write_config` stores the record itself.
* Randomness (`ThreadRng`) is a stream of naturals `List Nat`; each call
  to `choose` on a non-empty candidate list of length `n` consumes the
  head seed `s` and picks index `s % n`.  All proved properties hold for
  every seed stream.
* The filesystem directory listings are a function
  `dirList : String → List String` from a directory path to the file
  names it contains (directories are assumed readable; an unreadable
  entry would make the Rust code panic on `img.unwrap()`, which no claim
  exercises).
* The external `gsettings` command is a function
  `cmd : String → CmdOutcome`: invoking it on a path either fails to
  spawn or runs and exits with some code.
* Rust panics (out-of-bounds indexing) are modelled by the `abort`
  outcome of `RunResult`; `Except Err` is used for operations that can
  only fail with a Rust `Err`.
* File writes are modelled as always succeeding.
-/

namespace Wallch

/-- Error kinds, following the spec's error taxonomy (section 7): the
anyhow contexts of main.rs are grouped into these kinds. -/
inductive Err where
  | configError
  | selectionError
  | applyError
deriving Repr, DecidableEq

/-- The `Config` struct of main.rs (lines 10-17). -/
structure Config where
  dirs : List String
  duration : Option String
  active_dir : Option Nat
  current : Option String
  next : Option (List String)
deriving Repr, DecidableEq

/-- Outcome of invoking the external background-setting command:
either the process cannot be spawned, or it runs and exits with a code. -/
inductive CmdOutcome where
  | spawnFail
  | exit (code : Int)
deriving Repr, DecidableEq

/-- Result of an operation that may also hit a Rust panic (`abort`). -/
inductive RunResult (α : Type) where
  | ok (a : α)
  | err (e : Err)
  | abort
deriving Repr, DecidableEq

/-- `parse_config` (main.rs lines 20-38): read the file, fail if
missing/unparsable, then fill in the defaults `"10m"` for `duration` and
`0` for `active_dir`.  It only reads the file: the filled record is
returned, not written back. -/
def parse_config (fs : Option Config) : Except Err Config :=
  match fs with
  | none => .error .configError
  | some c =>
      .ok { c with
            duration := some (c.duration.getD "10m"),
            active_dir := some (c.active_dir.getD 0) }

/-- `load`: `parse_config` as a state transformer on the stored file,
recording that it performs no write (the file component is returned
unchanged). -/
def load (fs : Option Config) : Except Err Config × Option Config :=
  (parse_config fs, fs)

/-- `write_config` (main.rs lines 41-48): serialize and store the record
(writes are modelled as succeeding). -/
def write_config (c : Config) : Option Config :=
  some c

/-- The glob pattern `{dir}/*.*` of `select_new` (main.rs line 52)
matches exactly the entries of `dir` whose name contains a dot. -/
def globMatches (name : String) : Bool :=
  name.data.contains '.'

/-- `select_new` (main.rs lines 51-60): list the entries of `dir`
matching `*.*`, choose one uniformly at random (error if there is none),
and return it as a `file://` URI.  Consumes one seed. -/
def select_new (dir : String) (dirList : String → List String)
    (seeds : List Nat) : Except Err String × List Nat :=
  let imgs := (dirList dir).filter globMatches
  let s := seeds.headD 0
  if imgs.length = 0 then
    (.error .selectionError, seeds.tail)
  else
    (.ok ("file://" ++ dir ++ "/" ++ imgs.getD (s % imgs.length) ""),
     seeds.tail)

/-- The `for dir in &config.dirs` loop of `cache_next` (main.rs lines
66-69): select one image per directory, failing on the first directory
with no selectable file. -/
def selectAll (dirs : List String) (dirList : String → List String)
    (seeds : List Nat) : Except Err (List String) × List Nat :=
  match dirs with
  | [] => (.ok [], seeds)
  | d :: ds =>
      match select_new d dirList seeds with
      | (.error e, s1) => (.error e, s1)
      | (.ok img, s1) =>
          match selectAll ds dirList s1 with
          | (.error e, s2) => (.error e, s2)
          | (.ok imgs, s2) => (.ok (img :: imgs), s2)

/-- `cache_next` (main.rs lines 63-75): re-parse the config, select a
next wallpaper for every directory, and only then store the `next`
list.  On any selection failure the error is returned before the write,
so the stored file is unchanged. -/
def cache_next (fs : Option Config) (dirList : String → List String)
    (seeds : List Nat) : Except Err Unit × Option Config × List Nat :=
  match parse_config fs with
  | .error e => (.error e, fs, seeds)
  | .ok config =>
      match selectAll config.dirs dirList seeds with
      | (.error e, s1) => (.error e, fs, s1)
      | (.ok nxt, s1) =>
          (.ok (), write_config { config with next := some nxt }, s1)

/-- `get_next` (main.rs lines 78-89): re-parse the config; if a `next`
list is cached return `next[active_dir]`, else select on the fly from
`dirs[active_dir]`.  Both indexings are unguarded in the Rust source:
an out-of-range `active_dir` panics (`abort`). -/
def get_next (fs : Option Config) (dirList : String → List String)
    (seeds : List Nat) : RunResult String × List Nat :=
  match parse_config fs with
  | .error e => (.err e, seeds)
  | .ok config =>
      let active_dir := config.active_dir.getD 0
      match config.next with
      | some nxt =>
          if active_dir < nxt.length then
            (.ok (nxt.getD active_dir ""), seeds)
          else
            (.abort, seeds)
      | none =>
          if active_dir < config.dirs.length then
            match select_new (config.dirs.getD active_dir "") dirList seeds with
            | (.error e, s1) => (.err e, s1)
            | (.ok img, s1) => (.ok img, s1)
          else
            (.abort, seeds)

/-- `set_wallpaper` (main.rs lines 92-99): invoke `gsettings` with the
path.  `.status()` only fails when the process cannot be spawned; the
returned exit status is not inspected, so any exit code counts as
success. -/
def set_wallpaper (cmd : String → CmdOutcome) (fname : String) :
    Except Err Unit :=
  match cmd fname with
  | .spawnFail => .error .applyError
  | .exit _ => .ok ()

/-- `next` (main.rs lines 130-142): parse the config, resolve the next
wallpaper, apply it, record it as `current` and write, then cache a
fresh `next` list for every directory.  Returns the operation result
together with the stored file and the remaining seed stream. -/
def next (fs : Option Config) (dirList : String → List String)
    (cmd : String → CmdOutcome) (seeds : List Nat) :
    RunResult Unit × Option Config × List Nat :=
  match parse_config fs with
  | .error e => (.err e, fs, seeds)
  | .ok config =>
      match get_next fs dirList seeds with
      | (.abort, s1) => (.abort, fs, s1)
      | (.err e, s1) => (.err e, fs, s1)
      | (.ok cur, s1) =>
          match set_wallpaper cmd cur with
          | .error e => (.err e, fs, s1)
          | .ok () =>
              let fs1 := write_config { config with current := some cur }
              match cache_next fs1 dirList s1 with
              | (.error e, fs2, s2) => (.err e, fs2, s2)
              | (.ok (), fs2, s2) => (.ok (), fs2, s2)

/-- The wrap-around increment of the active directory performed by
`toggle` (main.rs lines 150-154). -/
def toggleIdx (i len : Nat) : Nat :=
  if i + 1 < len then i + 1 else 0

/-- `toggle` (main.rs lines 145-163): switch the active directory to the
next one in `dirs`, wrapping around, persist the new config, then run
`next` on it. -/
def toggle (fs : Option Config) (dirList : String → List String)
    (cmd : String → CmdOutcome) (seeds : List Nat) :
    RunResult Unit × Option Config × List Nat :=
  match parse_config fs with
  | .error e => (.err e, fs, seeds)
  | .ok config =>
      let active_dir := config.active_dir.getD 0
      let fs1 := write_config
        { config with active_dir := some (toggleIdx active_dir config.dirs.length) }
      next fs1 dirList cmd seeds

/-- One iteration of `run` (main.rs lines 102-127): the same sequence as
`next` (parse, resolve, apply, persist `current`, cache `next`),
followed by parsing the sleep duration.  `durParse` models
`humanize_rs::duration::parse` (the sleep itself has no observable
effect on the state).  The duration is taken from the config parsed at
the start of the iteration. -/
def run (fs : Option Config) (dirList : String → List String)
    (cmd : String → CmdOutcome) (durParse : String → Option Nat)
    (seeds : List Nat) : RunResult Unit × Option Config × List Nat :=
  match parse_config fs with
  | .error e => (.err e, fs, seeds)
  | .ok config =>
      match get_next fs dirList seeds with
      | (.abort, s1) => (.abort, fs, s1)
      | (.err e, s1) => (.err e, fs, s1)
      | (.ok cur, s1) =>
          match set_wallpaper cmd cur with
          | .error e => (.err e, fs, s1)
          | .ok () =>
              let fs1 := write_config { config with current := some cur }
              match cache_next fs1 dirList s1 with
              | (.error e, fs2, s2) => (.err e, fs2, s2)
              | (.ok (), fs2, s2) =>
                  match durParse (config.duration.getD "10m") with
                  | none => (.err .configError, fs2, s2)
                  | some _ => (.ok (), fs2, s2)

/-- Left-to-right, non-overlapping replacement of every occurrence of
`pat` by `rep` in a character list, as Rust's `str::replace`.  `fuel`
bounds the recursion; callers pass the length of the string, which is
enough whenever `pat` is non-empty. -/
def replaceChars : Nat → List Char → List Char → List Char → List Char
  | _, _, _, [] => []
  | 0, _, _, s => s
  | fuel + 1, pat, rep, c :: rest =>
      if pat.isPrefixOf (c :: rest) then
        rep ++ replaceChars fuel pat rep (List.drop pat.length (c :: rest))
      else
        c :: replaceChars fuel pat rep rest

/-- Rust's `s.replace(pat, rep)` on Lean strings. -/
def replaceStr (s pat rep : String) : String :=
  ⟨replaceChars s.data.length pat.data rep.data s.data⟩

/-- `current` (main.rs lines 166-173): the stored `current` field with
every occurrence of `"file://"` replaced by the empty string
(`str::replace` replaces all occurrences, not only a leading one). -/
def current (config : Config) : Option String :=
  match config.current with
  | some s => some (replaceStr s "file://" "")
  | _ => none

/-- The `current` subcommand of `main` (main.rs lines 246-248): print
`current(&config)` or the empty string when it is `None`. -/
def report_current (config : Config) : String :=
  (current config).getD ""

/-- The startup sequence of `main` (main.rs lines 221-234): parse the
config, override `duration` and `active_dir` with the CLI flags when
given, and write the updated record back.  `activeOpt` is the parsed
value of the `--active` flag; no bound check is performed on it. -/
def mainUpdate (fs : Option Config) (durOpt : Option String)
    (activeOpt : Option Nat) : Except Err (Config × Option Config) :=
  match parse_config fs with
  | .error e => .error e
  | .ok config =>
      let config1 :=
        match durOpt with
        | some d => { config with duration := some d }
        | none => config
      let config2 :=
        match activeOpt with
        | some a => { config1 with active_dir := some a }
        | none => config1
      .ok (config2, write_config config2)

/-- The character list of the URI scheme `"file://"`. -/
def filePat : List Char := ['f', 'i', 'l', 'e', ':', '/', '/']

/-- Whether `pat` occurs as a contiguous subsequence of `s`. -/
def containsSeq (pat : List Char) : List Char → Bool
  | [] => pat.isEmpty
  | c :: rest => pat.isPrefixOf (c :: rest) || containsSeq pat rest

/-- Modelled from the spec: "returns `current_selection` with any URI
scheme prefix stripped", read as removing one leading `"file://"`
occurrence (and nothing elsewhere in the string).  Used only to compare
the spec's wording with the code's `str::replace` behaviour. -/
def spec_strip_scheme (s : String) : String :=
  if filePat.isPrefixOf s.data then ⟨s.data.drop filePat.length⟩ else s

/-! Helper lemmas. -/

/-- `parse_config` on a readable file returns the record with the two
optional fields defaulted. -/
theorem parse_config_some (raw : Config) :
    parse_config (some raw) =
      .ok { raw with
            duration := some (raw.duration.getD "10m"),
            active_dir := some (raw.active_dir.getD 0) } := rfl

/-- The wrap-around increment always lands inside the directory list
when that list is non-empty. -/
theorem toggleIdx_lt (i len : Nat) (h : 0 < len) : toggleIdx i len < len := by
  unfold toggleIdx
  split <;> omega

/-- Below the length, the wrap-around increment is addition modulo the
length. -/
theorem toggleIdx_eq_mod (i len : Nat) (h : i < len) :
    toggleIdx i len = (i + 1) % len := by
  unfold toggleIdx
  split
  · exact (Nat.mod_eq_of_lt (by assumption)).symm
  · have hlen : i + 1 = len := by omega
    rw [hlen, Nat.mod_self]

/-- Iterating the wrap-around increment `len` times returns to the
start. -/
theorem toggleIdx_iterate (len i : Nat) (hi : i < len) :
    (fun j => toggleIdx j len)^[len] i = i := by
  have key : ∀ (k j : Nat), j < len →
      (fun j => toggleIdx j len)^[k] j = (j + k) % len := by
    intro k
    induction k with
    | zero =>
        intro j hj
        simpa using (Nat.mod_eq_of_lt hj).symm
    | succ k ih =>
        intro j hj
        rw [Function.iterate_succ_apply]
        have hlt : (j + 1) % len < len := Nat.mod_lt _ (by omega)
        calc (fun j => toggleIdx j len)^[k] (toggleIdx j len)
            = (fun j => toggleIdx j len)^[k] ((j + 1) % len) := by
              rw [toggleIdx_eq_mod j len hj]
          _ = ((j + 1) % len + k) % len := ih _ hlt
          _ = (j + (k + 1)) % len := by
              rw [Nat.mod_add_mod]
              congr 1
              omega
  rw [key len i hi, Nat.add_mod_right, Nat.mod_eq_of_lt hi]

/-- `select_new` can only fail with a selection error. -/
theorem select_new_error_kind (dir : String) (dL : String → List String)
    (seeds s1 : List Nat) (e : Err)
    (h : select_new dir dL seeds = (.error e, s1)) : e = .selectionError := by
  unfold select_new at h
  by_cases h0 : (List.filter globMatches (dL dir)).length = 0
  · simp only [h0, if_true, reduceIte, Prod.mk.injEq, Except.error.injEq] at h
    exact h.1.symm
  · simp [h0] at h

/-- If any directory of the list has no entry matching `*.*`, the
selection loop of `cache_next` fails with a selection error. -/
theorem selectAll_err (dL : String → List String) (d : String)
    (hempty : (dL d).filter globMatches = []) :
    ∀ (dirs : List String) (seeds : List Nat), d ∈ dirs →
      ∃ s1, selectAll dirs dL seeds = (.error .selectionError, s1) := by
  intro dirs
  induction dirs with
  | nil =>
      intro seeds hmem
      simp at hmem
  | cons d0 ds ih =>
      intro seeds hmem
      by_cases hd0 : (dL d0).filter globMatches = []
      · refine ⟨seeds.tail, ?_⟩
        simp [selectAll, select_new, hd0]
      · have hdne : d ≠ d0 := fun he => hd0 (he ▸ hempty)
        have hmem' : d ∈ ds := by
          rcases List.mem_cons.mp hmem with h | h
          · exact absurd h hdne
          · exact h
        obtain ⟨s1, hs1⟩ := ih seeds.tail hmem'
        refine ⟨s1, ?_⟩
        have hne : ((dL d0).filter globMatches).length ≠ 0 := by
          simpa [List.length_eq_zero] using hd0
        simp [selectAll, select_new, hne, hs1]

/-- If any directory of the parsed config has no selectable file,
`cache_next` fails before writing: the stored file is unchanged. -/
theorem cache_next_err (raw : Config) (dL : String → List String)
    (seeds : List Nat) (d : String) (hd : d ∈ raw.dirs)
    (hempty : (dL d).filter globMatches = []) :
    ∃ s1, cache_next (some raw) dL seeds =
      (.error .selectionError, some raw, s1) := by
  obtain ⟨s1, hs1⟩ := selectAll_err dL d hempty raw.dirs seeds hd
  refine ⟨s1, ?_⟩
  simp [cache_next, parse_config, hs1]

/-- Whatever `next` does (succeed, fail, or abort), the stored file it
returns still holds a record with the same `dirs` and the same (defined)
`active_dir` as the input record. -/
theorem next_fields (c0 : Config) (a : Nat) (dL : String → List String)
    (cmd : String → CmdOutcome) (seeds : List Nat)
    (ha : c0.active_dir = some a) :
    ∃ c1, (next (some c0) dL cmd seeds).2.1 = some c1 ∧
      c1.dirs = c0.dirs ∧ c1.active_dir = some a := by
  unfold next
  rw [parse_config_some]
  rcases hg : get_next (some c0) dL seeds with ⟨r, s1⟩
  cases r with
  | abort => exact ⟨c0, by simp [hg], rfl, ha⟩
  | err e => exact ⟨c0, by simp [hg], rfl, ha⟩
  | ok cur =>
      cases hw : set_wallpaper cmd cur with
      | error e => exact ⟨c0, by simp [hg, hw], rfl, ha⟩
      | ok u =>
          rcases hc : cache_next
              (some { c0 with
                duration := some (c0.duration.getD "10m"),
                active_dir := some (c0.active_dir.getD 0),
                current := some cur }) dL s1 with ⟨rc, fs2, s2⟩
          have hfs2 : ∃ c1, fs2 = some c1 ∧ c1.dirs = c0.dirs ∧
              c1.active_dir = some a := by
            unfold cache_next at hc
            rw [parse_config_some] at hc
            dsimp only at hc
            rcases hsel : selectAll c0.dirs dL s1 with ⟨rs, s3⟩
            rw [hsel] at hc
            cases rs with
            | error e =>
                dsimp only at hc
                simp only [Prod.mk.injEq] at hc
                exact ⟨_, hc.2.1.symm, rfl, by simp [ha]⟩
            | ok nxt =>
                dsimp only at hc
                simp only [Prod.mk.injEq] at hc
                refine ⟨_, hc.2.1.symm, ?_, ?_⟩ <;> simp [write_config, ha]
          obtain ⟨c1, rfl, hdirs, hact⟩ := hfs2
          cases rc with
          | error e => exact ⟨c1, by simp [hg, hw, write_config, hc], hdirs, hact⟩
          | ok u2 => exact ⟨c1, by simp [hg, hw, write_config, hc], hdirs, hact⟩

/-- One unfolding step of `replaceChars` at a match position. -/
theorem replaceChars_step (fuel : Nat) (pat rep : List Char) (c : Char)
    (rest : List Char) (h : pat.isPrefixOf (c :: rest) = true) :
    replaceChars (fuel + 1) pat rep (c :: rest) =
      rep ++ replaceChars fuel pat rep (List.drop pat.length (c :: rest)) := by
  simp only [replaceChars]
  rw [if_pos h]

/-- A character list in which `pat` does not occur is unchanged by
`replaceChars`, given fuel at least its length. -/
theorem replaceChars_no_occur (pat rep : List Char) :
    ∀ (s : List Char) (fuel : Nat), containsSeq pat s = false →
      s.length ≤ fuel → replaceChars fuel pat rep s = s := by
  intro s
  induction s with
  | nil =>
      intro fuel _ _
      cases fuel <;> rfl
  | cons c rest ih =>
      intro fuel h hf
      cases fuel with
      | zero => simp at hf
      | succ f =>
          unfold containsSeq at h
          rw [Bool.or_eq_false_iff] at h
          unfold replaceChars
          simp only [h.1, Bool.false_eq_true, if_false]
          rw [ih f h.2 (by simp at hf; omega)]

/-- Replacing `"file://"` by nothing in `"file://" ++ s` removes exactly
the leading copy when the pattern does not occur in `s`. -/
theorem replaceChars_strip (s : List Char)
    (h : containsSeq filePat s = false) :
    replaceChars (filePat ++ s).length filePat [] (filePat ++ s) = s := by
  have hpre : filePat.isPrefixOf
      ('f' :: (['i', 'l', 'e', ':', '/', '/'] ++ s)) = true := by
    have : filePat.isPrefixOf (filePat ++ s) = true := by
      simp [List.isPrefixOf_iff_prefix]
    exact this
  have hlen : (filePat ++ s).length = s.length + 6 + 1 := by
    simp only [List.length_append, filePat, List.length_cons, List.length_nil]
    omega
  rw [hlen]
  rw [show filePat ++ s = 'f' :: (['i', 'l', 'e', ':', '/', '/'] ++ s) from rfl]
  rw [replaceChars_step _ _ _ _ _ hpre]
  exact replaceChars_no_occur filePat [] s (s.length + 6) h (by omega)

/-- String form of `replaceChars_strip`, matching the call in
`current`. -/
theorem replaceStr_strip (p : String)
    (h : containsSeq filePat p.data = false) :
    replaceStr ("file://" ++ p) "file://" "" = p := by
  have hdata : ("file://" ++ p).data = filePat ++ p.data := rfl
  have hpat : ("file://" : String).data = filePat := rfl
  have h0 : ("" : String).data = ([] : List Char) := rfl
  unfold replaceStr
  rw [hdata, hpat, h0, replaceChars_strip p.data h]

/-- `get_next` on a readable config file panics exactly when the stored
`active_dir` (or its default 0) is out of range for the cached `next`
list when one is present, or for `dirs` when it is absent. -/
theorem get_next_abort_iff (raw : Config) (dL : String → List String)
    (seeds : List Nat) :
    (get_next (some raw) dL seeds).1 = .abort ↔
      (match raw.next with
       | some nxt => nxt.length ≤ raw.active_dir.getD 0
       | none => raw.dirs.length ≤ raw.active_dir.getD 0) := by
  unfold get_next
  rw [parse_config_some]
  dsimp only
  simp only [Option.getD_some]
  cases hn : raw.next with
  | some nxt =>
      dsimp only
      by_cases hlt : raw.active_dir.getD 0 < nxt.length
      · rw [if_pos hlt]
        simp
        omega
      · rw [if_neg hlt]
        simp
        omega
  | none =>
      dsimp only
      by_cases hlt : raw.active_dir.getD 0 < raw.dirs.length
      · rw [if_pos hlt]
        rcases hs : select_new (raw.dirs.getD (raw.active_dir.getD 0) "")
            dL seeds with ⟨rs, s1⟩
        cases rs <;> simp [hs] <;> omega
      · rw [if_neg hlt]
        simp
        omega

/-! Claim theorems. -/

/-- C1, counterexample: the CLI override of the active directory index
is persisted without any bound check.  On a config with a single
directory, overriding with index 5 stores `active_dir = 5`, violating
`active_index < len(directories)`. -/
theorem C1_counterexample :
    mainUpdate (some ⟨["/a"], some "10m", some 0, none, none⟩) none (some 5) =
      .ok (⟨["/a"], some "10m", some 5, none, none⟩,
        some ⟨["/a"], some "10m", some 5, none, none⟩) ∧
    ¬ 5 < (Config.mk ["/a"] (some "10m") (some 5) none none).dirs.length :=
  ⟨rfl, by decide⟩

/-- C1, amended: when the directory list is non-empty, `toggle` always
leaves the persisted configuration with `active_index <
len(directories)`, and `load`'s defaulting of a missing `active_dir`
yields index 0, which is within bounds; the CLI override performs no
bound check. -/
theorem C1_amended_invariant (raw : Config) (dL : String → List String)
    (cmd : String → CmdOutcome) (seeds : List Nat)
    (hlen : 0 < raw.dirs.length) :
    (∃ c1 j, (toggle (some raw) dL cmd seeds).2.1 = some c1 ∧
      c1.active_dir = some j ∧ j < c1.dirs.length) ∧
    (raw.active_dir = none →
      ∃ c, parse_config (some raw) = .ok c ∧ c.active_dir = some 0 ∧
        0 < c.dirs.length) := by
  constructor
  · have htog : toggle (some raw) dL cmd seeds =
        next (some { raw with
          duration := some (raw.duration.getD "10m"),
          active_dir :=
            some (toggleIdx (raw.active_dir.getD 0) raw.dirs.length) })
          dL cmd seeds := rfl
    obtain ⟨c1, h1, h2, h3⟩ := next_fields
      { raw with
        duration := some (raw.duration.getD "10m"),
        active_dir :=
          some (toggleIdx (raw.active_dir.getD 0) raw.dirs.length) }
      (toggleIdx (raw.active_dir.getD 0) raw.dirs.length) dL cmd seeds rfl
    refine ⟨c1, toggleIdx (raw.active_dir.getD 0) raw.dirs.length,
      by rw [htog]; exact h1, h3, ?_⟩
    rw [h2]
    exact toggleIdx_lt _ _ hlen
  · intro h0
    refine ⟨_, parse_config_some raw, by simp [h0], hlen⟩

/-- C1, witness: the amended statement at a concrete configuration. -/
theorem C1_witness :
    0 < (Config.mk ["/a"] none none none none).dirs.length ∧
    ((∃ c1 j, (toggle (some (Config.mk ["/a"] none none none none))
        (fun _ => []) (fun _ => CmdOutcome.exit 0) []).2.1 = some c1 ∧
      c1.active_dir = some j ∧ j < c1.dirs.length) ∧
    ((Config.mk ["/a"] none none none none).active_dir = none →
      ∃ c, parse_config (some (Config.mk ["/a"] none none none none)) =
          .ok c ∧ c.active_dir = some 0 ∧ 0 < c.dirs.length)) :=
  ⟨by decide, C1_amended_invariant _ _ _ _ (by decide)⟩

/-- C2, counterexample: the external command runs and exits with the
non-zero status 1, yet `set_wallpaper` succeeds: the exit status of
`gsettings` is never inspected. -/
theorem C2_counterexample :
    set_wallpaper (fun _ => CmdOutcome.exit 1) "/w.png" = .ok () ∧
    (1 : Int) ≠ 0 :=
  ⟨rfl, by decide⟩

/-- C2, amended: `set_wallpaper` fails with `ApplyError` exactly when
the external command cannot be invoked; whenever the command runs, it
succeeds regardless of the exit code. -/
theorem C2_amended_apply (cmd : String → CmdOutcome) (p : String) :
    (set_wallpaper cmd p = .error .applyError ↔ cmd p = .spawnFail) ∧
    (∀ k, cmd p = .exit k → set_wallpaper cmd p = .ok ()) := by
  cases h : cmd p <;> simp [set_wallpaper, h]

/-- C2, witness: the amended statement at a concrete command. -/
theorem C2_witness :
    (set_wallpaper (fun _ => CmdOutcome.exit 0) "/w" = .error .applyError ↔
      (fun _ : String => CmdOutcome.exit 0) "/w" = .spawnFail) ∧
    (∀ k, (fun _ : String => CmdOutcome.exit 0) "/w" = .exit k →
      set_wallpaper (fun _ => CmdOutcome.exit 0) "/w" = .ok ()) :=
  C2_amended_apply _ _

/-- C3: starting from a valid active index over a non-empty directory
list, `toggle` persists exactly the wrap-around increment, the new index
is in bounds, and iterating the increment `len(directories)` times
returns to the original index. -/
theorem C3_toggle_bound_and_cycle (raw : Config) (dL : String → List String)
    (cmd : String → CmdOutcome) (seeds : List Nat) (i : Nat)
    (hi : raw.active_dir = some i) (hlt : i < raw.dirs.length) :
    (∃ c1, (toggle (some raw) dL cmd seeds).2.1 = some c1 ∧
      c1.active_dir = some (toggleIdx i raw.dirs.length) ∧
      toggleIdx i raw.dirs.length < c1.dirs.length) ∧
    (fun j => toggleIdx j raw.dirs.length)^[raw.dirs.length] i = i := by
  constructor
  · have htog : toggle (some raw) dL cmd seeds =
        next (some { raw with
          duration := some (raw.duration.getD "10m"),
          active_dir :=
            some (toggleIdx (raw.active_dir.getD 0) raw.dirs.length) })
          dL cmd seeds := rfl
    rw [hi] at htog
    simp only [Option.getD_some] at htog
    obtain ⟨c1, h1, h2, h3⟩ := next_fields
      { raw with
        duration := some (raw.duration.getD "10m"),
        active_dir := some (toggleIdx i raw.dirs.length) }
      (toggleIdx i raw.dirs.length) dL cmd seeds rfl
    refine ⟨c1, by rw [htog]; exact h1, h3, ?_⟩
    rw [h2]
    exact toggleIdx_lt _ _ (by omega)
  · exact toggleIdx_iterate _ _ hlt

/-- C3, witness: the statement at a concrete two-directory config with
active index 1 (the wrap-around case). -/
theorem C3_witness :
    (Config.mk ["/a", "/b"] none (some 1) none none).active_dir = some 1 ∧
    1 < (Config.mk ["/a", "/b"] none (some 1) none none).dirs.length ∧
    ((∃ c1, (toggle (some (Config.mk ["/a", "/b"] none (some 1) none none))
        (fun _ => []) (fun _ => CmdOutcome.exit 0) []).2.1 = some c1 ∧
      c1.active_dir = some (toggleIdx 1
        (Config.mk ["/a", "/b"] none (some 1) none none).dirs.length) ∧
      toggleIdx 1 (Config.mk ["/a", "/b"] none (some 1) none none).dirs.length
        < c1.dirs.length) ∧
    (fun j => toggleIdx j
        (Config.mk ["/a", "/b"] none (some 1) none none).dirs.length)^[
      (Config.mk ["/a", "/b"] none (some 1) none none).dirs.length] 1 = 1) :=
  ⟨rfl, by decide, C3_toggle_bound_and_cycle _ _ _ _ 1 rfl (by decide)⟩

/-- C4, counterexample: a directory containing exactly one file named
`README` (no dot, hence no `*.*` match) makes `pick_random` fail even
though the directory is non-empty. -/
theorem C4_counterexample :
    (fun _ : String => ["README"]) "/d" = ["README"] ∧
    (select_new "/d" (fun _ => ["README"]) []).1 = .error .selectionError :=
  ⟨rfl, rfl⟩

/-- C4, amended: on a directory whose listing is exactly one file whose
name matches the `*.*` glob (its name contains a dot), `select_new`
succeeds and returns that file as a `file://` URI, for every random
seed. -/
theorem C4_amended_single_file (dir name : String)
    (dL : String → List String) (seeds : List Nat)
    (h1 : dL dir = [name]) (h2 : globMatches name = true) :
    (select_new dir dL seeds).1 = .ok ("file://" ++ dir ++ "/" ++ name) := by
  unfold select_new
  rw [h1]
  simp [List.filter, h2, Nat.mod_one]

/-- C4, witness: the amended statement at a concrete directory. -/
theorem C4_witness :
    (fun _ : String => ["x.png"]) "/a" = ["x.png"] ∧
    globMatches "x.png" = true ∧
    (select_new "/a" (fun _ => ["x.png"]) [0]).1 =
      .ok ("file://" ++ "/a" ++ "/" ++ "x.png") :=
  ⟨rfl, rfl, C4_amended_single_file "/a" "x.png" _ _ rfl rfl⟩

/-- C5, counterexample: `load` (that is, `parse_config`) fills the
defaults only in the record it returns; the stored file is untouched
when `load` returns, so the defaults are not persisted "before load
returns".  (They are persisted later, by `main`.) -/
theorem C5_counterexample :
    (load (some ⟨["/a"], none, none, none, none⟩)).1 =
      .ok ⟨["/a"], some "10m", some 0, none, none⟩ ∧
    (load (some ⟨["/a"], none, none, none, none⟩)).2 =
      some ⟨["/a"], none, none, none, none⟩ ∧
    some (⟨["/a"], none, none, none, none⟩ : Config) ≠
      write_config ⟨["/a"], some "10m", some 0, none, none⟩ :=
  ⟨rfl, rfl, by decide⟩

/-- C5, amended: `load` fills a missing `duration` with the 10-minute
default `"10m"` and a missing `active_dir` with 0 in the returned
record, leaving the file unchanged; the defaults are persisted by the
startup sequence of `main`, which writes the updated record back
immediately after `load` returns. -/
theorem C5_amended_defaults (raw : Config) (h1 : raw.duration = none)
    (h2 : raw.active_dir = none) :
    (load (some raw)).1 =
      .ok { raw with duration := some "10m", active_dir := some 0 } ∧
    (load (some raw)).2 = some raw ∧
    mainUpdate (some raw) none none =
      .ok ({ raw with duration := some "10m", active_dir := some 0 },
        some { raw with duration := some "10m", active_dir := some 0 }) := by
  refine ⟨?_, rfl, ?_⟩
  · simp [load, parse_config, h1, h2]
  · simp [mainUpdate, parse_config, write_config, h1, h2]

/-- C5, witness: the amended statement at a concrete config file with
both optional fields missing. -/
theorem C5_witness :
    (Config.mk ["/a"] none none none none).duration = none ∧
    (Config.mk ["/a"] none none none none).active_dir = none ∧
    ((load (some (Config.mk ["/a"] none none none none))).1 =
      .ok { Config.mk ["/a"] none none none none with
            duration := some "10m", active_dir := some 0 } ∧
    (load (some (Config.mk ["/a"] none none none none))).2 =
      some (Config.mk ["/a"] none none none none) ∧
    mainUpdate (some (Config.mk ["/a"] none none none none)) none none =
      .ok ({ Config.mk ["/a"] none none none none with
             duration := some "10m", active_dir := some 0 },
        some { Config.mk ["/a"] none none none none with
               duration := some "10m", active_dir := some 0 })) :=
  ⟨rfl, rfl, C5_amended_defaults _ rfl rfl⟩

/-- C6: with `dirs = ["/a", "/b"]`, `active_dir = 0`, no cached `next`
list, and `/a` containing exactly `x.png`, the `next` operation (as long
as the external command can be spawned) leaves the stored config with
`current` referencing `x.png` and `active_dir` still 0 — whether or not
the trailing `cache_next` pass over `/b` succeeds. -/
theorem C6_next_scenario (dur cur : Option String)
    (dL : String → List String) (cmd : String → CmdOutcome)
    (seeds : List Nat) (ha : dL "/a" = ["x.png"])
    (hc : cmd "file:///a/x.png" ≠ CmdOutcome.spawnFail) :
    ∃ c1, (next (some ⟨["/a", "/b"], dur, some 0, cur, none⟩)
        dL cmd seeds).2.1 = some c1 ∧
      c1.current = some "file:///a/x.png" ∧ c1.active_dir = some 0 := by
  have hg : globMatches "x.png" = true := rfl
  have hsel : ∀ s : List Nat,
      select_new "/a" dL s = (.ok "file:///a/x.png", s.tail) := by
    intro s
    unfold select_new
    rw [ha]
    simp [List.filter, hg, Nat.mod_one]
  rcases hk : cmd "file:///a/x.png" with _ | k
  · exact absurd hk hc
  · have hset : set_wallpaper cmd "file:///a/x.png" = .ok () := by
      simp [set_wallpaper, hk]
    rcases hb : select_new "/b" dL seeds.tail.tail with ⟨rb, sb⟩
    cases rb with
    | error e =>
        refine ⟨⟨["/a", "/b"], some (dur.getD "10m"), some 0,
          some "file:///a/x.png", none⟩, ?_, rfl, rfl⟩
        simp [next, get_next, cache_next, selectAll, parse_config,
          write_config, hsel, hb, hset]
    | ok img =>
        refine ⟨⟨["/a", "/b"], some (dur.getD "10m"), some 0,
          some "file:///a/x.png", some ["file:///a/x.png", img]⟩,
          ?_, rfl, rfl⟩
        simp [next, get_next, cache_next, selectAll, parse_config,
          write_config, hsel, hb, hset]

/-- C6, witness: the scenario at concrete directory listings, command
outcome and seed stream. -/
theorem C6_witness :
    (fun d : String => if d = "/a" then ["x.png"] else ["y.png"]) "/a" =
      ["x.png"] ∧
    (fun _ : String => CmdOutcome.exit 0) "file:///a/x.png" ≠
      CmdOutcome.spawnFail ∧
    (∃ c1, (next (some ⟨["/a", "/b"], none, some 0, none, none⟩)
        (fun d => if d = "/a" then ["x.png"] else ["y.png"])
        (fun _ => CmdOutcome.exit 0) []).2.1 = some c1 ∧
      c1.current = some "file:///a/x.png" ∧ c1.active_dir = some 0) :=
  ⟨rfl, by decide, C6_next_scenario none none _ _ _ rfl (by decide)⟩

/-- C7, counterexample: on a `current` value containing `"file://"`
away from the start, `current` removes that inner occurrence
(`str::replace` replaces everywhere), which differs from stripping a
leading URI scheme: the spec-modelled strip would leave the string
unchanged. -/
theorem C7_counterexample :
    current ⟨[], none, none, some "/xfile://y", none⟩ = some "/xy" ∧
    spec_strip_scheme "/xfile://y" = "/xfile://y" ∧
    ("/xy" : String) ≠ "/xfile://y" :=
  ⟨rfl, rfl, by decide⟩

/-- C7, amended: `report_current` returns empty when `current` is
unset; when it is set, every occurrence of `"file://"` is removed — in
particular, on a value `"file://" ++ p` where the scheme does not occur
in `p` (every value the program itself stores), the result is exactly
`p`, the leading prefix stripped. -/
theorem C7_amended_report (config : Config) (p : String)
    (hp : containsSeq filePat p.data = false)
    (hcur : config.current = some ("file://" ++ p)) :
    current config = some p ∧
    (∀ c2 : Config, c2.current = none → report_current c2 = "") := by
  constructor
  · simp only [current, hcur]
    rw [replaceStr_strip p hp]
  · intro c2 h2
    simp [report_current, current, h2]

/-- C7, witness: the amended statement at a concrete stored URI. -/
theorem C7_witness :
    containsSeq filePat ("/a/x.png" : String).data = false ∧
    (Config.mk [] none none (some ("file://" ++ "/a/x.png")) none).current =
      some ("file://" ++ "/a/x.png") ∧
    (current (Config.mk [] none none
        (some ("file://" ++ "/a/x.png")) none) = some "/a/x.png" ∧
      (∀ c2 : Config, c2.current = none → report_current c2 = "")) :=
  ⟨by decide, rfl, C7_amended_report _ "/a/x.png" (by decide) rfl⟩

/-- C8: a record obtained from `load` is reproduced exactly by saving
it and loading the resulting file again (round-trip law). -/
theorem C8_load_save_roundtrip (fs : Option Config) (c : Config)
    (h : parse_config fs = .ok c) :
    parse_config (write_config c) = .ok c := by
  cases fs with
  | none => simp [parse_config] at h
  | some raw =>
      rw [parse_config_some] at h
      injection h with h1
      subst h1
      rfl

/-- C8, witness: the round trip at a concrete config file. -/
theorem C8_witness :
    parse_config (some (Config.mk ["/a"] none none none none)) =
      .ok (Config.mk ["/a"] (some "10m") (some 0) none none) ∧
    parse_config (write_config
        (Config.mk ["/a"] (some "10m") (some 0) none none)) =
      .ok (Config.mk ["/a"] (some "10m") (some 0) none none) :=
  ⟨rfl, C8_load_save_roundtrip (some (Config.mk ["/a"] none none none none))
    (Config.mk ["/a"] (some "10m") (some 0) none none) rfl⟩

/-- C9: `get_next` on a loaded configuration panics (Rust aborts via
unguarded indexing) exactly when `active_dir` is out of range for the
cached `next` list when present, or for `dirs` when absent; under the
precondition it never aborts, returning `ok` or an error instead. -/
theorem C9_get_next_panics (raw : Config) (dL : String → List String)
    (seeds : List Nat) :
    (get_next (some raw) dL seeds).1 = .abort ↔
      (match raw.next with
       | some nxt => nxt.length ≤ raw.active_dir.getD 0
       | none => raw.dirs.length ≤ raw.active_dir.getD 0) :=
  get_next_abort_iff raw dL seeds

/-- C9, witness: a stale cached `next` list (here empty) with
`active_dir = 3` makes `get_next` abort. -/
theorem C9_witness :
    (get_next (some (Config.mk ["/a"] none (some 3) none (some [])))
      (fun _ => []) []).1 = .abort :=
  (C9_get_next_panics _ _ _).mpr (Nat.zero_le 3)

/-- C10: if any configured directory (not only the active one) has no
selectable file, `cache_next` fails before writing — the stored file is
returned unchanged — and consequently the `next` and `run` operations
fail as well (under the no-panic precondition on `active_dir`). -/
theorem C10_all_or_nothing (raw : Config) (d : String)
    (dL : String → List String) (cmd : String → CmdOutcome)
    (durParse : String → Option Nat) (seeds : List Nat)
    (hd : d ∈ raw.dirs) (hempty : (dL d).filter globMatches = [])
    (hnext : ∀ nxt, raw.next = some nxt →
      raw.active_dir.getD 0 < nxt.length)
    (hdirs : raw.next = none → raw.active_dir.getD 0 < raw.dirs.length) :
    (∃ s1, cache_next (some raw) dL seeds =
      (.error .selectionError, some raw, s1)) ∧
    (∃ e, (next (some raw) dL cmd seeds).1 = .err e) ∧
    (∃ e, (run (some raw) dL cmd durParse seeds).1 = .err e) := by
  have habort : ¬ (get_next (some raw) dL seeds).1 = .abort := by
    rw [get_next_abort_iff]
    cases hn : raw.next with
    | some nxt =>
        have := hnext nxt hn
        dsimp only
        omega
    | none =>
        have := hdirs hn
        dsimp only
        omega
  obtain ⟨s1c, hcache⟩ := cache_next_err raw dL seeds d hd hempty
  refine ⟨⟨s1c, hcache⟩, ?_⟩
  rcases hg : get_next (some raw) dL seeds with ⟨rg, s1⟩
  cases rg with
  | abort => exact absurd (by rw [hg]) habort
  | err e =>
      exact ⟨⟨e, by simp [next, parse_config, hg]⟩,
        ⟨e, by simp [run, parse_config, hg]⟩⟩
  | ok cur =>
      cases hw : set_wallpaper cmd cur with
      | error e =>
          exact ⟨⟨e, by simp [next, parse_config, hg, hw]⟩,
            ⟨e, by simp [run, parse_config, hg, hw]⟩⟩
      | ok u =>
          obtain ⟨s2c, hcache2⟩ := cache_next_err
            { raw with
              duration := some (raw.duration.getD "10m"),
              active_dir := some (raw.active_dir.getD 0),
              current := some cur } dL s1 d hd hempty
          exact ⟨⟨.selectionError,
              by simp [next, parse_config, hg, hw, write_config, hcache2]⟩,
            ⟨.selectionError,
              by simp [run, parse_config, hg, hw, write_config, hcache2]⟩⟩

/-- C10, witness: a single empty directory makes `cache_next`, `next`
and `run` all fail on a concrete configuration. -/
theorem C10_witness :
    "/a" ∈ (Config.mk ["/a"] none (some 0) none none).dirs ∧
    ((fun _ : String => ([] : List String)) "/a").filter globMatches = [] ∧
    ((∃ s1, cache_next (some (Config.mk ["/a"] none (some 0) none none))
        (fun _ => []) [] = (.error .selectionError,
          some (Config.mk ["/a"] none (some 0) none none), s1)) ∧
    (∃ e, (next (some (Config.mk ["/a"] none (some 0) none none))
        (fun _ => []) (fun _ => CmdOutcome.exit 0) []).1 = .err e) ∧
    (∃ e, (run (some (Config.mk ["/a"] none (some 0) none none))
        (fun _ => []) (fun _ => CmdOutcome.exit 0)
        (fun _ => some 600) []).1 = .err e)) :=
  ⟨by decide, rfl, C10_all_or_nothing _ "/a" _ _ _ _ (by decide) rfl
    (fun nxt h => nomatch h) (fun _ => by decide)⟩

end Wallch
